import Mathlib

/-!
# A shallow embedding of the chat-service data layer

This file models the transactional data layer of the chat application
(`src/app/models.py`, `src/app/streaming.py`, surfaced through
`src/app/main.py`) and proves properties of the modelled operations.

Conventions of the embedding:
* row identifiers (UUIDs in the store) are modelled as `Nat`;
* timestamps (`TIMESTAMPTZ`) are modelled as `Nat` instants;
* `INT`/`BIGINT` columns are modelled as `Int`;
* each table is a list of rows, the whole store a `DBState`;
* values produced by the store at execution time (`gen_random_uuid()`,
  `now()`, `random.sample`) are passed to the modelled operation as
  explicit parameters;
* a statement that aborts the enclosing transaction is modelled with
  `Except`: on an error the caller observes the pre-transaction state.
-/

namespace ChatApp

/-- A row of the `users` table (see `create_schema` in `src/app/models.py`). -/
structure UserRow where
  id : Nat
  email : String
  token_usage : Int
  plan_tier : String
  created_at : Nat
  updated_at : Nat
deriving DecidableEq, Repr

/-- A row of the `conversations` table. -/
structure ConversationRow where
  id : Nat
  user_id : Nat
  title : String
  message_count : Int
  updated_at : Nat
  created_at : Nat
deriving DecidableEq, Repr

/-- A row of the `messages` table. -/
structure MessageRow where
  id : Nat
  conversation_id : Nat
  role : String
  content : String
  token_count : Int
  created_at : Nat
deriving DecidableEq, Repr

/-- A row of the `notifications` table.  The JSONB payload is kept opaque
(none of the modelled operations inspects it). -/
structure NotificationRow where
  id : Nat
  user_id : Nat
  ntype : String
  payload : String
  read : Bool
  created_at : Nat
deriving DecidableEq, Repr

/-- The whole relational store. -/
structure DBState where
  users : List UserRow
  conversations : List ConversationRow
  messages : List MessageRow
  notifications : List NotificationRow
deriving DecidableEq, Repr

/-- Store-level failures that abort the transaction of the statement that
raised them (the subset relevant to the modelled operations). -/
inductive DBError where
  | foreignKeyViolation
  | checkViolation
deriving DecidableEq, Repr

/-! ## Statement-level helpers (one per SQL statement shape) -/

/-- `SELECT SUM(token_count) ...` over a list of message rows. -/
def sumTokens (l : List MessageRow) : Int :=
  l.foldr (fun m acc => m.token_count + acc) 0

/-- `UPDATE conversations SET message_count = message_count + delta,
updated_at = now() WHERE id = cid`. -/
def bumpConversation (l : List ConversationRow) (cid : Nat) (delta : Int)
    (now : Nat) : List ConversationRow :=
  l.map (fun c =>
    if c.id == cid then
      { c with message_count := c.message_count + delta, updated_at := now }
    else c)

/-- `SELECT token_usage FROM users WHERE id = uid`, combined with the
`current or 0` coercion applied by the Python callers (an absent row reads
as `0`; a stored `0` is also `0`). -/
def userUsage (l : List UserRow) (uid : Nat) : Int :=
  match l.find? (fun u => u.id == uid) with
  | some u => u.token_usage
  | none => 0

/-- `UPDATE users SET token_usage = v, updated_at = now() WHERE id = uid`. -/
def setUserUsage (l : List UserRow) (uid : Nat) (v : Int) (now : Nat) :
    List UserRow :=
  l.map (fun u =>
    if u.id == uid then { u with token_usage := v, updated_at := now }
    else u)

/-! ## `add_message` (src/app/models.py) -/

/-- Embedding of `add_message` from `src/app/models.py`.

The Python function runs, inside one transaction: the message `INSERT`
(whose row-level `CHECK (role IN ('user','assistant'))` and foreign-key
constraint on `conversation_id` can abort the transaction), the
conversation counter `UPDATE`, the `SELECT user_id`, and the non-atomic
read-then-write of the owner's `token_usage`.  `mid` stands for the
generated message id and `now` for the store clock. -/
def add_message (st : DBState) (conversation_id : Nat) (role : String)
    (content : String) (token_count : Int) (mid now : Nat) :
    Except DBError (DBState × MessageRow) :=
  if role == "user" || role == "assistant" then
    if st.conversations.any (fun c => c.id == conversation_id) then
      let msg : MessageRow :=
        { id := mid, conversation_id := conversation_id, role := role,
          content := content, token_count := token_count, created_at := now }
      let st1 := { st with messages := st.messages ++ [msg] }
      let st2 :=
        { st1 with
          conversations := bumpConversation st1.conversations conversation_id 1 now }
      match st2.conversations.find? (fun c => c.id == conversation_id) with
      | none => Except.ok (st2, msg)
      | some conv =>
        let current := userUsage st2.users conv.user_id
        Except.ok
          ({ st2 with
             users := setUserUsage st2.users conv.user_id (current + token_count) now },
           msg)
    else Except.error DBError.foreignKeyViolation
  else Except.error DBError.checkViolation

/-- Embedding of the `api_add_message` route of `src/app/main.py`: a
foreign-key violation is surfaced as HTTP 404, any other store failure as
HTTP 500; an aborted transaction leaves the caller-visible state
unchanged.  Returns the status code and the resulting store state. -/
def api_add_message (st : DBState) (conversation_id : Nat) (role : String)
    (content : String) (token_count : Int) (mid now : Nat) : Nat × DBState :=
  match add_message st conversation_id role content token_count mid now with
  | Except.ok (st2, _) => (200, st2)
  | Except.error DBError.foreignKeyViolation => (404, st)
  | Except.error _ => (500, st)

/-! ## `delete_conversation` (src/app/models.py) -/

/-- Embedding of `delete_conversation` from `src/app/models.py`: inside one
transaction, sum the conversation's message token counts, resolve the
owner, return `false` untouched when the conversation row is absent,
otherwise delete the conversation (messages cascade via the foreign key)
and write back the owner's `token_usage` lowered by the sum, floored at
zero. -/
def delete_conversation (st : DBState) (conversation_id : Nat) (now : Nat) :
    DBState × Bool :=
  let total_tokens :=
    sumTokens (st.messages.filter (fun m => m.conversation_id == conversation_id))
  match st.conversations.find? (fun c => c.id == conversation_id) with
  | none => (st, false)
  | some conv =>
    let st1 :=
      { st with
        conversations := st.conversations.filter (fun c => !(c.id == conversation_id)),
        messages := st.messages.filter (fun m => !(m.conversation_id == conversation_id)) }
    let current := userUsage st1.users conv.user_id
    let new_usage := max 0 (current - total_tokens)
    ({ st1 with users := setUserUsage st1.users conv.user_id new_usage now }, true)

/-! ## `get_messages` (src/app/models.py) -/

/-- Ordering used by `ORDER BY m.created_at ASC`. -/
def msgOldestFirst (a b : MessageRow) : Prop := a.created_at ≤ b.created_at

instance : DecidableRel msgOldestFirst := fun a b => Nat.decLe a.created_at b.created_at

instance : IsTotal MessageRow msgOldestFirst :=
  ⟨fun a b => Nat.le_total a.created_at b.created_at⟩

instance : IsTrans MessageRow msgOldestFirst :=
  ⟨fun _ _ _ hab hbc => Nat.le_trans hab hbc⟩

/-- Ordering used by `ORDER BY m.created_at DESC`. -/
def msgNewestFirst (a b : MessageRow) : Prop := b.created_at ≤ a.created_at

instance : DecidableRel msgNewestFirst := fun a b => Nat.decLe b.created_at a.created_at

instance : IsTotal MessageRow msgNewestFirst :=
  ⟨fun a b => Nat.le_total b.created_at a.created_at⟩

instance : IsTrans MessageRow msgNewestFirst :=
  ⟨fun _ _ _ hab hbc => Nat.le_trans hbc hab⟩

/-- A message row together with the correlated-subquery column
`running_total` of `get_messages`. -/
structure MessageWithTotal where
  msg : MessageRow
  running_total : Int
deriving DecidableEq, Repr

/-- Embedding of `get_messages` from `src/app/models.py`: the messages of
the conversation, oldest first, each annotated with
`SELECT SUM(token_count) FROM messages WHERE conversation_id =
m.conversation_id AND created_at <= m.created_at`. -/
def get_messages (st : DBState) (conversation_id : Nat) :
    List MessageWithTotal :=
  let msgs := st.messages.filter (fun m => m.conversation_id == conversation_id)
  (List.insertionSort msgOldestFirst msgs).map (fun m =>
    { msg := m,
      running_total :=
        sumTokens (msgs.filter (fun x => decide (x.created_at ≤ m.created_at))) })

/-! ## `search_messages` (src/app/models.py)

The `WHERE m.content ILIKE '%' || $2 || '%'` filter delegates pattern
matching to the store.  `likeMatch` embeds the store's `ILIKE` semantics
over the pattern alphabet: `%` matches any sequence, `_` matches any one
character, a backslash escapes the following character, and every literal
comparison is case-insensitive. -/

/-- The store's `ILIKE` matcher: does pattern `p` match string `s`? -/
def likeMatch : List Char → List Char → Bool
  | [], [] => true
  | [], _ :: _ => false
  | c :: p, [] => if c = '%' then likeMatch p [] else false
  | c :: p, d :: s =>
    if c = '%' then likeMatch p (d :: s) || likeMatch (c :: p) s
    else if c = '_' then likeMatch p s
    else if c = '\\' then
      match p with
      | [] => false
      | e :: p2 => e.toLower == d.toLower && likeMatch p2 s
    else c.toLower == d.toLower && likeMatch p s
termination_by p s => (p.length, s.length)

/-- Case-insensitive literal substring containment (the relation the
specification describes for `search_messages`). -/
def containsCI (content query : String) : Bool :=
  decide ((query.toList.map Char.toLower) <:+: (content.toList.map Char.toLower))

/-- Embedding of `search_messages` from `src/app/models.py`: join the
user's conversations, filter by the interpolated `ILIKE` pattern
`'%' || query || '%'`, order newest first, truncate to `limit`. -/
def search_messages (st : DBState) (user_id : Nat) (query : String)
    (limit : Nat) : List MessageRow :=
  let found := st.messages.filter (fun m =>
    st.conversations.any (fun c => c.id == m.conversation_id && c.user_id == user_id)
      && likeMatch ('%' :: (query.toList ++ ['%'])) m.content.toList)
  (List.insertionSort msgNewestFirst found).take limit

/-- `search_messages` at its default `limit = 50` (the Python default
parameter value). -/
def search_messages_default (st : DBState) (user_id : Nat) (query : String) :
    List MessageRow :=
  search_messages st user_id query 50

/-! ## `stream_response` (src/app/streaming.py) -/

/-- The fixed pool of canned response fragments of `src/app/streaming.py`. -/
def RESPONSE_FRAGMENTS : List String :=
  [ "I understand your question. ",
    "Let me think about that. ",
    "Based on my analysis, ",
    "there are several factors to consider. ",
    "First, we should look at ",
    "the underlying assumptions. ",
    "Additionally, it's worth noting that ",
    "this relates to broader patterns ",
    "in the field. ",
    "To summarize, ",
    "the key insight is that ",
    "we need to balance multiple considerations. ",
    "I hope this helps clarify things. ",
    "Let me know if you have follow-up questions." ]

/-- Python's `len(s.split())`: the number of maximal whitespace-free runs. -/
def countWordsAux : List Char → Bool → Nat
  | [], _ => 0
  | c :: rest, inWord =>
    if c.isWhitespace then countWordsAux rest false
    else (if inWord then 0 else 1) + countWordsAux rest true

/-- Word count of a string, as computed by `len(chunk.split())`. -/
def wordCount (s : String) : Nat := countWordsAux s.toList false

/-- The running token estimate accumulated by the streaming loop:
`total_tokens += len(chunk.split())` over the selected chunks. -/
def tokensOfChunks (chunks : List String) : Int :=
  chunks.foldl (fun acc c => acc + (wordCount c : Int)) 0

/-- Embedding of `stream_response` from `src/app/streaming.py`.  The
random sample of fragments is passed in as `selected`; `mid1`/`mid2` stand
for the generated message ids and `now` for the store clock.  Within one
transaction: insert the user message (the foreign-key constraint can abort
the transaction), accumulate the fragments, insert the assistant message,
bump `message_count` by two and apply the read-then-write accounting
update for both token counts combined.  Returns the emitted chunks. -/
def stream_response (st : DBState) (conversation_id : Nat)
    (user_content : String) (user_token_count : Int) (selected : List String)
    (mid1 mid2 now : Nat) : Except DBError (DBState × List String) :=
  if st.conversations.any (fun c => c.id == conversation_id) then
    let userMsg : MessageRow :=
      { id := mid1, conversation_id := conversation_id, role := "user",
        content := user_content, token_count := user_token_count,
        created_at := now }
    let st1 := { st with messages := st.messages ++ [userMsg] }
    let full_response := String.join selected
    let total_tokens := tokensOfChunks selected
    let assistantMsg : MessageRow :=
      { id := mid2, conversation_id := conversation_id, role := "assistant",
        content := full_response, token_count := total_tokens,
        created_at := now }
    let st2 := { st1 with messages := st1.messages ++ [assistantMsg] }
    let st3 :=
      { st2 with
        conversations := bumpConversation st2.conversations conversation_id 2 now }
    match st3.conversations.find? (fun c => c.id == conversation_id) with
    | none => Except.ok (st3, selected)
    | some conv =>
      let current := userUsage st3.users conv.user_id
      let total := user_token_count + total_tokens
      Except.ok
        ({ st3 with
           users := setUserUsage st3.users conv.user_id (current + total) now },
         selected)
  else Except.error DBError.foreignKeyViolation

/-! ## `poll_notifications` (src/app/models.py) -/

/-- The far-past default of the `since` parameter
(`datetime(2000, 1, 1, tzinfo=timezone.utc)` in the source). -/
def FAR_PAST : Nat := 0

/-- The fixed attempt budget of the long-poll loop (`range(30)`). -/
def POLL_ATTEMPTS : Nat := 30

/-- One attempt's query: `SELECT * FROM notifications WHERE user_id = $1
AND created_at > $2`. -/
def poll_query (st : DBState) (user_id since_dt : Nat) : List NotificationRow :=
  st.notifications.filter (fun n =>
    n.user_id == user_id && decide (since_dt < n.created_at))

/-- The bounded retry loop of `poll_notifications`.  Because concurrent
writers may add notifications between attempts, each attempt `i` queries
the store state `states i` current at that attempt. -/
def poll_loop (states : Nat → DBState) (user_id since_dt : Nat) :
    Nat → Nat → List NotificationRow
  | 0, _ => []
  | fuel + 1, i =>
    let rows := poll_query (states i) user_id since_dt
    if rows.isEmpty then poll_loop states user_id since_dt fuel (i + 1)
    else rows

/-- Embedding of `poll_notifications` from `src/app/models.py`. -/
def poll_notifications (states : Nat → DBState) (user_id : Nat)
    (since : Option Nat) : List NotificationRow :=
  poll_loop states user_id (since.getD FAR_PAST) POLL_ATTEMPTS 0

/-! ## Transaction-boundary traces

For each public data-layer operation we record, in source order, the
sequence of store interactions it performs on its pool-leased connection:
`beginTx`/`commitTx` for the explicit `conn.transaction()` block when the
operation opens one, and `sqlRead`/`sqlWrite` for the individual SQL
statements.  A statement executed outside an explicit transaction block
runs in its own implicit (autocommit) transaction, which is what
`txCount` counts. -/

inductive SqlAction where
  | beginTx
  | commitTx
  | sqlRead
  | sqlWrite
deriving DecidableEq, Repr

/-- Number of store transactions a trace executes: one per explicit
`beginTx … commitTx` block, plus one per statement executed outside any
block (autocommit).  The flag says whether we are inside an explicit
block. -/
def txCountAux : List SqlAction → Bool → Nat
  | [], _ => 0
  | SqlAction.beginTx :: r, _ => 1 + txCountAux r true
  | SqlAction.commitTx :: r, _ => txCountAux r false
  | _ :: r, true => txCountAux r true
  | _ :: r, false => 1 + txCountAux r false

/-- Number of store transactions executed by a trace. -/
def txCount (tr : List SqlAction) : Nat := txCountAux tr false

/-- Trace of `add_message` (success path): one explicit transaction
wrapping the insert, the counter update, the two reads and the accounting
write. -/
def add_message_trace : List SqlAction :=
  [SqlAction.beginTx, SqlAction.sqlWrite, SqlAction.sqlWrite,
   SqlAction.sqlRead, SqlAction.sqlRead, SqlAction.sqlWrite,
   SqlAction.commitTx]

/-- Trace of `delete_conversation` (row present): one explicit transaction
wrapping the token sum, the owner lookup, the delete, and the accounting
read and write. -/
def delete_conversation_trace : List SqlAction :=
  [SqlAction.beginTx, SqlAction.sqlRead, SqlAction.sqlRead,
   SqlAction.sqlWrite, SqlAction.sqlRead, SqlAction.sqlWrite,
   SqlAction.commitTx]

/-- Trace of `stream_response` (success path): one explicit transaction
wrapping both message inserts, the counter update, and the accounting
reads and write. -/
def stream_response_trace : List SqlAction :=
  [SqlAction.beginTx, SqlAction.sqlWrite, SqlAction.sqlWrite,
   SqlAction.sqlWrite, SqlAction.sqlRead, SqlAction.sqlRead,
   SqlAction.sqlWrite, SqlAction.commitTx]

/-- Trace of `poll_notifications` performing `attempts` query attempts:
the whole retry loop runs inside one explicit transaction. -/
def poll_notifications_trace (attempts : Nat) : List SqlAction :=
  SqlAction.beginTx ::
    (List.replicate attempts SqlAction.sqlRead ++ [SqlAction.commitTx])

/-- The currently-unread notifications of a user, as selected by
`mark_all_read`. -/
def unread_notifications (st : DBState) (user_id : Nat) : List NotificationRow :=
  st.notifications.filter (fun n => n.user_id == user_id && !n.read)

/-- Trace of `mark_all_read`: the function opens no explicit transaction,
so the unread `SELECT` and each per-row `UPDATE` autocommit
individually. -/
def mark_all_read_trace (st : DBState) (user_id : Nat) : List SqlAction :=
  SqlAction.sqlRead ::
    List.replicate (unread_notifications st user_id).length SqlAction.sqlWrite

/-- Trace of `broadcast_notification`: the user enumeration
(`SELECT id FROM users`) runs before — hence outside — the explicit
transaction that wraps the per-user inserts. -/
def broadcast_notification_trace (st : DBState) : List SqlAction :=
  SqlAction.sqlRead ::
    (SqlAction.beginTx ::
      (List.replicate st.users.length SqlAction.sqlWrite ++ [SqlAction.commitTx]))

/-! ## Interleaving model of the `token_usage` read-modify-write

Step (c) of `add_message` reads the owner's `token_usage`
(`SELECT token_usage FROM users WHERE id = $1`) and then writes back
`current + token_count` computed in application logic.  Under the store's
default isolation, two concurrent `add_message` calls against the same
user interleave these two statements freely.  The model below runs two
such read-modify-write threads over the shared counter under an arbitrary
schedule. -/

/-- One in-flight `add_message` accounting update: `delta` is its
`token_count`, `pc` its progress (`0`: before the `SELECT`, `1`: between
the `SELECT` and the `UPDATE`, `2`: done), `reg` the `current` value it
read. -/
structure RmwThread where
  delta : Int
  pc : Nat
  reg : Int
deriving DecidableEq, Repr

/-- Initial thread state for an accounting update adding `delta`. -/
def mkThread (delta : Int) : RmwThread := { delta := delta, pc := 0, reg := 0 }

/-- Execute one statement of a thread against the shared `token_usage`
value: the `SELECT` stores the current value in the thread, the `UPDATE`
overwrites the counter with `reg + delta`. -/
def rmwStep (usage : Int) (t : RmwThread) : Int × RmwThread :=
  match t.pc with
  | 0 => (usage, { t with pc := 1, reg := usage })
  | 1 => (t.reg + t.delta, { t with pc := 2 })
  | _ => (usage, t)

/-- Run two accounting threads under a schedule (`true` steps the first
thread, `false` the second), returning the final counter and threads. -/
def rmwRun (usage : Int) (a b : RmwThread) :
    List Bool → Int × RmwThread × RmwThread
  | [] => (usage, a, b)
  | true :: sched =>
    let p := rmwStep usage a
    rmwRun p.1 p.2 b sched
  | false :: sched =>
    let p := rmwStep usage b
    rmwRun p.1 a p.2 sched

/-- Final `token_usage` after running two concurrent `add_message`
accounting updates of `a` and `b` tokens under `sched`, starting from
`initial`. -/
def rmwFinal (initial a b : Int) (sched : List Bool) : Int :=
  (rmwRun initial (mkThread a) (mkThread b) sched).1

/-- Both accounting updates have executed their `SELECT` and their
`UPDATE` under `sched`. -/
def rmwDone (initial a b : Int) (sched : List Bool) : Prop :=
  (rmwRun initial (mkThread a) (mkThread b) sched).2.1.pc = 2 ∧
    (rmwRun initial (mkThread a) (mkThread b) sched).2.2.pc = 2

instance (initial a b : Int) (sched : List Bool) :
    Decidable (rmwDone initial a b sched) := by
  unfold rmwDone; infer_instance

/-! ## Supporting lemmas -/

theorem txCountAux_replicate_in (x : SqlAction) (hx : x = SqlAction.sqlRead ∨ x = SqlAction.sqlWrite) :
    ∀ (n : Nat) (r : List SqlAction),
      txCountAux (List.replicate n x ++ r) true = txCountAux r true := by
  intro n
  induction n with
  | zero => intro r; rfl
  | succ k ih =>
    intro r
    rcases hx with rfl | rfl <;> simpa [List.replicate_succ, txCountAux] using ih r

theorem txCountAux_replicate_write_out (n : Nat) :
    txCountAux (List.replicate n SqlAction.sqlWrite) false = n := by
  induction n with
  | zero => rfl
  | succ k ih =>
    simp [List.replicate_succ, txCountAux, ih]
    omega

theorem poll_loop_all_empty (states : Nat → DBState) (uid s : Nat) :
    ∀ (fuel i : Nat),
      (∀ k, k < fuel → poll_query (states (i + k)) uid s = []) →
      poll_loop states uid s fuel i = [] := by
  intro fuel
  induction fuel with
  | zero => intro i _; rfl
  | succ n ih =>
    intro i h
    have h0 : poll_query (states i) uid s = [] := by
      simpa using h 0 (Nat.succ_pos n)
    have hrec : poll_loop states uid s n (i + 1) = [] := by
      refine ih (i + 1) (fun k hk => ?_)
      have := h (k + 1) (Nat.succ_lt_succ hk)
      simpa [Nat.add_assoc, Nat.add_comm 1 k] using this
    simp [poll_loop, h0, hrec]

theorem poll_loop_first_hit (states : Nat → DBState) (uid s : Nat) :
    ∀ (fuel k i : Nat), k < fuel →
      (∀ j, j < k → poll_query (states (i + j)) uid s = []) →
      poll_query (states (i + k)) uid s ≠ [] →
      poll_loop states uid s fuel i = poll_query (states (i + k)) uid s := by
  intro fuel
  induction fuel with
  | zero => intro k i hk; exact absurd hk (Nat.not_lt_zero k)
  | succ n ih =>
    intro k i hk hbefore hhit
    cases k with
    | zero =>
      have hne : poll_query (states i) uid s ≠ [] := by simpa using hhit
      have : (poll_query (states i) uid s).isEmpty = false := by
        simpa [List.isEmpty_iff] using hne
      simp [poll_loop, this]
    | succ k2 =>
      have h0 : poll_query (states i) uid s = [] := by
        simpa using hbefore 0 (Nat.succ_pos k2)
      have hrec :
          poll_loop states uid s n (i + 1) =
            poll_query (states (i + 1 + k2)) uid s := by
        refine ih k2 (i + 1) (Nat.lt_of_succ_lt_succ hk) (fun j hj => ?_) ?_
        · have := hbefore (j + 1) (Nat.succ_lt_succ hj)
          simpa [Nat.add_assoc, Nat.add_comm 1 j] using this
        · have : i + 1 + k2 = i + (k2 + 1) := by omega
          rw [this]; exact hhit
      have harith : i + 1 + k2 = i + (k2 + 1) := by omega
      simp [poll_loop, h0, hrec, harith]

theorem find?_bumpConversation (l : List ConversationRow) (cid : Nat)
    (d : Int) (now : Nat) (conv : ConversationRow)
    (h : l.find? (fun c => c.id == cid) = some conv) :
    (bumpConversation l cid d now).find? (fun c => c.id == cid) =
      some { conv with message_count := conv.message_count + d,
                       updated_at := now } := by
  induction l with
  | nil => simp at h
  | cons x xs ih =>
    simp only [bumpConversation, List.map_cons] at *
    by_cases hx : (x.id == cid) = true
    · rw [List.find?_cons_of_pos xs hx] at h
      injection h with h
      subst h
      rw [if_pos hx]
      simp [List.find?_cons, hx]
    · rw [List.find?_cons_of_neg xs hx] at h
      rw [if_neg hx]
      simp only [List.find?_cons, hx, cond_false]
      exact ih h

theorem find?_setUserUsage (l : List UserRow) (uid : Nat) (v : Int)
    (now : Nat) (u : UserRow)
    (h : l.find? (fun x => x.id == uid) = some u) :
    (setUserUsage l uid v now).find? (fun x => x.id == uid) =
      some { u with token_usage := v, updated_at := now } := by
  induction l with
  | nil => simp at h
  | cons x xs ih =>
    simp only [setUserUsage, List.map_cons] at *
    by_cases hx : (x.id == uid) = true
    · rw [List.find?_cons_of_pos xs hx] at h
      injection h with h
      subst h
      rw [if_pos hx]
      simp [List.find?_cons, hx]
    · rw [List.find?_cons_of_neg xs hx] at h
      rw [if_neg hx]
      simp only [List.find?_cons, hx, cond_false]
      exact ih h

/-! ## C1: the `token_usage` accounting race of `add_message` -/

/-- C1: the token-usage accounting in `add_message` is a non-atomic
read-modify-write: for two concurrent `add_message` calls against the
same user adding `a` and `b` tokens, there is an interleaving under which
both complete yet the final `token_usage` is `initial + max a b` — a lost
update — which differs from `initial + a + b` whenever both token counts
are positive. -/
theorem add_message_lost_update (initial a b : Int) (ha : 0 < a) (hb : 0 < b) :
    ∃ sched : List Bool,
      rmwDone initial a b sched ∧
      rmwFinal initial a b sched = initial + max a b ∧
      initial + max a b ≠ initial + a + b := by
  rcases le_total a b with h | h
  · refine ⟨[true, false, true, false], ?_, ?_, ?_⟩
    · constructor <;> simp [rmwDone, rmwRun, rmwStep, mkThread]
    · simp [rmwFinal, rmwRun, rmwStep, mkThread, max_eq_right h]
    · rw [max_eq_right h]; omega
  · refine ⟨[true, false, false, true], ?_, ?_, ?_⟩
    · constructor <;> simp [rmwDone, rmwRun, rmwStep, mkThread]
    · simp [rmwFinal, rmwRun, rmwStep, mkThread, max_eq_left h]
    · rw [max_eq_left h]; omega

/-- Witness for C1 at `initial = 100`, `a = 3`, `b = 5`. -/
theorem add_message_lost_update_witness :
    ∃ sched : List Bool,
      rmwDone 100 3 5 sched ∧
      rmwFinal 100 3 5 sched = 100 + max 3 5 ∧
      (100 : Int) + max 3 5 ≠ 100 + 3 + 5 :=
  add_message_lost_update 100 3 5 (by decide) (by decide)

/-! ## C2: sequential specification of `add_message` -/

/-- C2: on an existing conversation (with its owning user present, as the
store's foreign keys guarantee) and without concurrent writers,
`add_message` inserts exactly one message row carrying the given role,
content and token count, increments that conversation's `message_count`
by one and sets its `updated_at` to the transaction instant, and sets the
owner's `token_usage` to its prior value plus `token_count`; notifications
are untouched. -/
theorem add_message_spec (st : DBState) (cid : Nat) (role content : String)
    (tc : Int) (mid now : Nat) (conv : ConversationRow) (owner : UserRow)
    (hrole : role = "user" ∨ role = "assistant")
    (hconv : st.conversations.find? (fun c => c.id == cid) = some conv)
    (howner : st.users.find? (fun u => u.id == conv.user_id) = some owner) :
    ∃ st2 : DBState,
      add_message st cid role content tc mid now =
        Except.ok (st2,
          { id := mid, conversation_id := cid, role := role,
            content := content, token_count := tc, created_at := now }) ∧
      st2.messages = st.messages ++
        [{ id := mid, conversation_id := cid, role := role,
           content := content, token_count := tc, created_at := now }] ∧
      st2.conversations.find? (fun c => c.id == cid) =
        some { conv with message_count := conv.message_count + 1,
                         updated_at := now } ∧
      st2.users.find? (fun u => u.id == conv.user_id) =
        some { owner with token_usage := owner.token_usage + tc,
                          updated_at := now } ∧
      st2.notifications = st.notifications := by
  have hr : (role == "user" || role == "assistant") = true := by
    rcases hrole with rfl | rfl <;> decide
  have hp : (fun c => c.id == cid) conv = true :=
    @List.find?_some ConversationRow (fun c => c.id == cid) conv
      st.conversations hconv
  have hany : st.conversations.any (fun c => c.id == cid) = true := by
    rw [List.any_eq_true]
    exact ⟨conv, List.mem_of_find?_eq_some hconv, hp⟩
  have hfind := find?_bumpConversation st.conversations cid 1 now conv hconv
  have husage : userUsage st.users conv.user_id = owner.token_usage := by
    simp [userUsage, howner]
  refine ⟨{ st with
            messages := st.messages ++
              [{ id := mid, conversation_id := cid, role := role,
                 content := content, token_count := tc, created_at := now }],
            conversations := bumpConversation st.conversations cid 1 now,
            users := setUserUsage st.users conv.user_id
              (userUsage st.users conv.user_id + tc) now },
          ?_, rfl, hfind, ?_, rfl⟩
  · unfold add_message
    rw [hr, hany]
    simp only [if_true]
    rw [hfind]
  · rw [← husage]
    exact find?_setUserUsage st.users conv.user_id
      (userUsage st.users conv.user_id + tc) now owner howner

/-- Concrete conversation row for the C2 witness. -/
def exAddConv : ConversationRow :=
  { id := 10, user_id := 1, title := "t", message_count := 0,
    updated_at := 0, created_at := 0 }

/-- Concrete user row for the C2 witness. -/
def exAddOwner : UserRow :=
  { id := 1, email := "u1@example.com", token_usage := 10,
    plan_tier := "free", created_at := 0, updated_at := 0 }

/-- Concrete store for the C2 witness. -/
def exAddSt : DBState :=
  { users := [exAddOwner], conversations := [exAddConv],
    messages := [], notifications := [] }

/-- Witness for C2 at a concrete store. -/
theorem add_message_spec_witness :
    ∃ st2 : DBState,
      add_message exAddSt 10 "user" "hi" 7 99 5 =
        Except.ok (st2,
          { id := 99, conversation_id := 10, role := "user",
            content := "hi", token_count := 7, created_at := 5 }) ∧
      st2.messages = exAddSt.messages ++
        [{ id := 99, conversation_id := 10, role := "user",
           content := "hi", token_count := 7, created_at := 5 }] ∧
      st2.conversations.find? (fun c => c.id == 10) =
        some { exAddConv with message_count := exAddConv.message_count + 1,
                              updated_at := 5 } ∧
      st2.users.find? (fun u => u.id == exAddConv.user_id) =
        some { exAddOwner with token_usage := exAddOwner.token_usage + 7,
                               updated_at := 5 } ∧
      st2.notifications = exAddSt.notifications :=
  add_message_spec exAddSt 10 "user" "hi" 7 99 5 exAddConv exAddOwner
    (Or.inl rfl) (by decide) (by decide)

/-! ## C3: sequential specification of `delete_conversation` -/

/-- C3: when the conversation is absent, `delete_conversation` returns
`false` and leaves the store untouched (a no-op, not an error); when it
exists (with its owner present, as the foreign keys guarantee), it
removes the conversation row and exactly its messages — so a subsequent
`get_messages` on that conversation is empty — sets the owner's
`token_usage` to `max 0 (previous - S)` where `S` sums the deleted
messages' token counts, and returns `true`. -/
theorem delete_conversation_spec (st : DBState) (cid now : Nat) :
    (st.conversations.find? (fun c => c.id == cid) = none →
      delete_conversation st cid now = (st, false)) ∧
    (∀ (conv : ConversationRow) (owner : UserRow),
      st.conversations.find? (fun c => c.id == cid) = some conv →
      st.users.find? (fun u => u.id == conv.user_id) = some owner →
      ∃ st2 : DBState,
        delete_conversation st cid now = (st2, true) ∧
        st2.conversations = st.conversations.filter (fun c => !(c.id == cid)) ∧
        st2.messages = st.messages.filter (fun m => !(m.conversation_id == cid)) ∧
        get_messages st2 cid = [] ∧
        st2.users.find? (fun u => u.id == conv.user_id) =
          some { owner with
                 token_usage := max 0 (owner.token_usage -
                   sumTokens (st.messages.filter
                     (fun m => m.conversation_id == cid))),
                 updated_at := now } ∧
        st2.notifications = st.notifications) := by
  constructor
  · intro hnone
    unfold delete_conversation
    rw [hnone]
  · intro conv owner hconv howner
    have husage : userUsage st.users conv.user_id = owner.token_usage := by
      simp [userUsage, howner]
    refine ⟨{ st with
              conversations := st.conversations.filter (fun c => !(c.id == cid)),
              messages := st.messages.filter (fun m => !(m.conversation_id == cid)),
              users := setUserUsage st.users conv.user_id
                (max 0 (userUsage st.users conv.user_id -
                  sumTokens (st.messages.filter
                    (fun m => m.conversation_id == cid)))) now },
            ?_, rfl, rfl, ?_, ?_, rfl⟩
    · unfold delete_conversation
      rw [hconv]
    · have hempty :
          (st.messages.filter (fun m => !(m.conversation_id == cid))).filter
            (fun m => m.conversation_id == cid) = [] := by
        rw [List.filter_filter]
        refine List.filter_eq_nil_iff.mpr ?_
        intro m _
        cases h : m.conversation_id == cid <;> simp [h]
      simp [get_messages, hempty]
    · rw [← husage]
      exact find?_setUserUsage st.users conv.user_id
        (max 0 (userUsage st.users conv.user_id -
          sumTokens (st.messages.filter (fun m => m.conversation_id == cid))))
        now owner howner

/-- Concrete conversation row for the C3 witness. -/
def exDelConv : ConversationRow :=
  { id := 10, user_id := 1, title := "t", message_count := 2,
    updated_at := 0, created_at := 0 }

/-- Concrete user row for the C3 witness. -/
def exDelOwner : UserRow :=
  { id := 1, email := "u1@example.com", token_usage := 10,
    plan_tier := "free", created_at := 0, updated_at := 0 }

/-- Concrete store for the C3 witness: conversation `10` holds two
messages totalling 7 tokens; an unrelated conversation `11` holds one
message. -/
def exDelSt : DBState :=
  { users := [exDelOwner],
    conversations :=
      [exDelConv,
       { id := 11, user_id := 1, title := "t2", message_count := 1,
         updated_at := 0, created_at := 0 }],
    messages :=
      [{ id := 100, conversation_id := 10, role := "user", content := "a",
         token_count := 3, created_at := 1 },
       { id := 101, conversation_id := 10, role := "assistant", content := "b",
         token_count := 4, created_at := 2 },
       { id := 102, conversation_id := 11, role := "user", content := "c",
         token_count := 2, created_at := 3 }],
    notifications := [] }

/-- Witness for C3 at a concrete store. -/
theorem delete_conversation_spec_witness :
    ∃ st2 : DBState,
      delete_conversation exDelSt 10 5 = (st2, true) ∧
      st2.conversations = exDelSt.conversations.filter (fun c => !(c.id == 10)) ∧
      st2.messages = exDelSt.messages.filter (fun m => !(m.conversation_id == 10)) ∧
      get_messages st2 10 = [] ∧
      st2.users.find? (fun u => u.id == exDelConv.user_id) =
        some { exDelOwner with
               token_usage := max 0 (exDelOwner.token_usage -
                 sumTokens (exDelSt.messages.filter
                   (fun m => m.conversation_id == 10))),
               updated_at := 5 } ∧
      st2.notifications = exDelSt.notifications :=
  (delete_conversation_spec exDelSt 10 5).2 exDelConv exDelOwner
    (by decide) (by decide)

/-! ## C4: transaction boundaries of the public operations -/

/-- Store state used to exhibit the transaction-boundary violation: one
user and two unread notifications for user `1`. -/
def exTxSt : DBState :=
  { users :=
      [{ id := 1, email := "u1@example.com", token_usage := 0,
         plan_tier := "free", created_at := 0, updated_at := 0 }],
    conversations := [],
    messages := [],
    notifications :=
      [{ id := 1, user_id := 1, ntype := "system", payload := "p",
         read := false, created_at := 1 },
       { id := 2, user_id := 1, ntype := "system", payload := "p",
         read := false, created_at := 2 }] }

/-- C4 fails on the code: with two unread notifications, `mark_all_read`
executes its read and its two per-row updates as three separate
autocommit transactions, and `broadcast_notification` runs its user
enumeration outside the transaction wrapping its inserts, for two
transactions in total — neither is a single transaction. -/
theorem single_transaction_counterexample :
    txCount (mark_all_read_trace exTxSt 1) = 3 ∧
    txCount (mark_all_read_trace exTxSt 1) ≠ 1 ∧
    txCount (broadcast_notification_trace exTxSt) = 2 ∧
    txCount (broadcast_notification_trace exTxSt) ≠ 1 := by
  decide

/-- C4 (amended): each public operation runs on a single pool-leased
connection, and `add_message`, `delete_conversation`, `stream_response`
and the whole `poll_notifications` retry loop each execute inside exactly
one explicit transaction; but `mark_all_read` executes `1 + k` autocommit
transactions when the user has `k` unread notifications, and
`broadcast_notification` executes two transactions, its user enumeration
falling outside the transaction that wraps its inserts. -/
theorem transaction_boundaries :
    txCount add_message_trace = 1 ∧
    txCount delete_conversation_trace = 1 ∧
    txCount stream_response_trace = 1 ∧
    (∀ attempts : Nat, txCount (poll_notifications_trace attempts) = 1) ∧
    (∀ (st : DBState) (uid : Nat),
      txCount (mark_all_read_trace st uid) =
        1 + (unread_notifications st uid).length) ∧
    (∀ st : DBState, txCount (broadcast_notification_trace st) = 2) := by
  refine ⟨by decide, by decide, by decide, ?_, ?_, ?_⟩
  · intro attempts
    simp [poll_notifications_trace, txCount, txCountAux,
      txCountAux_replicate_in SqlAction.sqlRead (Or.inl rfl)]
  · intro st uid
    simp [mark_all_read_trace, txCount, txCountAux,
      txCountAux_replicate_write_out]
  · intro st
    simp [broadcast_notification_trace, txCount, txCountAux,
      txCountAux_replicate_in SqlAction.sqlWrite (Or.inr rfl)]

/-! ## C5: `get_messages` running totals -/

theorem sumTokens_cons (m : MessageRow) (l : List MessageRow) :
    sumTokens (m :: l) = m.token_count + sumTokens l := rfl

theorem sumTokens_filter_le (l : List MessageRow) (t1 t2 : Nat)
    (hnn : ∀ m ∈ l, 0 ≤ m.token_count) (h : t1 ≤ t2) :
    sumTokens (l.filter (fun x => decide (x.created_at ≤ t1))) ≤
      sumTokens (l.filter (fun x => decide (x.created_at ≤ t2))) := by
  induction l with
  | nil => simp [sumTokens]
  | cons x xs ih =>
    have hx : 0 ≤ x.token_count := hnn x (List.mem_cons_self x xs)
    have ih2 := ih (fun m hm => hnn m (List.mem_cons_of_mem x hm))
    by_cases h1 : x.created_at ≤ t1
    · have h2 : x.created_at ≤ t2 := le_trans h1 h
      simp only [List.filter_cons, decide_eq_true_eq, h1, h2, if_true,
        sumTokens_cons]
      exact add_le_add_left ih2 x.token_count
    · by_cases h2 : x.created_at ≤ t2
      · simp only [List.filter_cons, decide_eq_true_eq, h1, h2, if_true,
          if_false, sumTokens_cons]
        calc sumTokens (xs.filter (fun m => decide (m.created_at ≤ t1))) ≤
              sumTokens (xs.filter (fun m => decide (m.created_at ≤ t2))) := ih2
          _ ≤ x.token_count +
              sumTokens (xs.filter (fun m => decide (m.created_at ≤ t2))) :=
            le_add_of_nonneg_left hx
      · simp only [List.filter_cons, decide_eq_true_eq, h1, h2, if_false]
        exact ih2

/-- C5: `get_messages` returns the conversation's messages (as a
permutation of the rows of that conversation) ordered oldest first; each
returned entry's `running_total` is the sum of `token_count` over the
conversation's messages created at or before that entry's own creation
time; and — the stored token counts being non-negative — the running
totals are non-decreasing along the returned list. -/
theorem get_messages_spec (st : DBState) (cid : Nat)
    (hnn : ∀ m ∈ st.messages, 0 ≤ m.token_count) :
    ((get_messages st cid).map (fun x => x.msg)).Perm
      (st.messages.filter (fun m => m.conversation_id == cid)) ∧
    List.Pairwise (fun x y : MessageWithTotal =>
      x.msg.created_at ≤ y.msg.created_at) (get_messages st cid) ∧
    (∀ x ∈ get_messages st cid,
      x.running_total =
        sumTokens ((st.messages.filter (fun m => m.conversation_id == cid)).filter
          (fun m => decide (m.created_at ≤ x.msg.created_at)))) ∧
    List.Pairwise (fun x y : MessageWithTotal =>
      x.running_total ≤ y.running_total) (get_messages st cid) := by
  have hnn2 : ∀ m ∈ st.messages.filter (fun m => m.conversation_id == cid),
      0 ≤ m.token_count :=
    fun m hm => hnn m (List.mem_of_mem_filter hm)
  have hsorted :
      List.Pairwise msgOldestFirst
        (List.insertionSort msgOldestFirst
          (st.messages.filter (fun m => m.conversation_id == cid))) :=
    List.sorted_insertionSort msgOldestFirst _
  refine ⟨?_, ?_, ?_, ?_⟩
  · simp only [get_messages, List.map_map]
    have hid : ((fun x : MessageWithTotal => x.msg) ∘
        (fun m : MessageRow =>
          ({ msg := m,
             running_total :=
               sumTokens ((st.messages.filter
                   (fun m2 => m2.conversation_id == cid)).filter
                 (fun x => decide (x.created_at ≤ m.created_at))) } :
            MessageWithTotal))) = fun m => m := rfl
    rw [hid, List.map_id']
    exact List.perm_insertionSort msgOldestFirst _
  · simp only [get_messages]
    rw [List.pairwise_map]
    exact hsorted
  · intro x hx
    simp only [get_messages, List.mem_map] at hx
    obtain ⟨m, _, rfl⟩ := hx
    rfl
  · simp only [get_messages]
    rw [List.pairwise_map]
    refine hsorted.imp ?_
    intro a b hab
    exact sumTokens_filter_le _ a.created_at b.created_at hnn2 hab

/-- Concrete store for the C5 witness: conversation `10` holds messages
with 3 and 4 tokens created at instants 1 and 2; a foreign conversation
`11` holds one more message. -/
def exGetSt : DBState :=
  { users := [],
    conversations := [],
    messages :=
      [{ id := 101, conversation_id := 10, role := "assistant", content := "b",
         token_count := 4, created_at := 2 },
       { id := 100, conversation_id := 10, role := "user", content := "a",
         token_count := 3, created_at := 1 },
       { id := 102, conversation_id := 11, role := "user", content := "c",
         token_count := 2, created_at := 3 }],
    notifications := [] }

/-- Witness for C5 at a concrete store. -/
theorem get_messages_spec_witness :
    ((get_messages exGetSt 10).map (fun x => x.msg)).Perm
      (exGetSt.messages.filter (fun m => m.conversation_id == 10)) ∧
    List.Pairwise (fun x y : MessageWithTotal =>
      x.msg.created_at ≤ y.msg.created_at) (get_messages exGetSt 10) ∧
    (∀ x ∈ get_messages exGetSt 10,
      x.running_total =
        sumTokens ((exGetSt.messages.filter
            (fun m => m.conversation_id == 10)).filter
          (fun m => decide (m.created_at ≤ x.msg.created_at)))) ∧
    List.Pairwise (fun x y : MessageWithTotal =>
      x.running_total ≤ y.running_total) (get_messages exGetSt 10) :=
  get_messages_spec exGetSt 10 (by decide)

/-! ## C6: bounded long-poll -/

/-- C6: `poll_notifications` makes at most `POLL_ATTEMPTS = 30` query
attempts: the absent `since` defaults to the far-past instant; if every
attempt's query is empty the result is empty (the loop terminates by
construction — `poll_loop` consumes its fuel); and at the first attempt
whose query is non-empty, the matching notifications are returned. -/
theorem poll_notifications_spec (states : Nat → DBState) (uid : Nat)
    (since : Option Nat) :
    poll_notifications states uid none =
      poll_notifications states uid (some FAR_PAST) ∧
    ((∀ i, i < POLL_ATTEMPTS →
        poll_query (states i) uid (since.getD FAR_PAST) = []) →
      poll_notifications states uid since = []) ∧
    (∀ i, i < POLL_ATTEMPTS →
      (∀ j, j < i → poll_query (states j) uid (since.getD FAR_PAST) = []) →
      poll_query (states i) uid (since.getD FAR_PAST) ≠ [] →
      poll_notifications states uid since =
        poll_query (states i) uid (since.getD FAR_PAST)) := by
  refine ⟨rfl, ?_, ?_⟩
  · intro h
    exact poll_loop_all_empty states uid (since.getD FAR_PAST) POLL_ATTEMPTS 0
      (fun k hk => by simpa using h k hk)
  · intro i hi hbefore hhit
    have := poll_loop_first_hit states uid (since.getD FAR_PAST)
      POLL_ATTEMPTS i 0 hi (fun j hj => by simpa using hbefore j hj)
      (by simpa using hhit)
    simpa using this

/-- Store state used in the C6 witness: one stale notification, older
than the polled `since` instant. -/
def exPollSt : DBState :=
  { users := [], conversations := [], messages := [],
    notifications :=
      [{ id := 1, user_id := 1, ntype := "system", payload := "p",
         read := false, created_at := 5 }] }

/-- Witness for C6: polling user `1` with `since = 10` against a store
whose only notification predates `since` exhausts the attempt budget and
returns the empty result. -/
theorem poll_notifications_spec_witness :
    poll_notifications (fun _ => exPollSt) 1 (some 10) = [] :=
  (poll_notifications_spec (fun _ => exPollSt) 1 (some 10)).2.1
    (fun _ _ => by decide)

/-! ## C7 and C10: `search_messages` and the `ILIKE` pattern -/

/-- A query string free of the `ILIKE` metacharacters `%`, `_` and the
escape character. -/
def litStr (q : List Char) : Prop := ∀ c ∈ q, c ≠ '%' ∧ c ≠ '_' ∧ c ≠ '\\'

instance (q : List Char) : Decidable (litStr q) := by
  unfold litStr; infer_instance

theorem likeMatch_nil_nil : likeMatch [] [] = true := by
  rw [likeMatch.eq_def]

theorem likeMatch_nil_cons (d : Char) (s : List Char) :
    likeMatch [] (d :: s) = false := by
  rw [likeMatch.eq_def]

theorem likeMatch_percent_nil_eq (p : List Char) :
    likeMatch ('%' :: p) [] = likeMatch p [] := by
  rw [likeMatch.eq_def]
  simp

theorem likeMatch_percent_cons_eq (p : List Char) (d : Char) (s : List Char) :
    likeMatch ('%' :: p) (d :: s) =
      (likeMatch p (d :: s) || likeMatch ('%' :: p) s) := by
  rw [likeMatch.eq_def]
  simp

theorem likeMatch_lit_nil_eq (c : Char) (p : List Char)
    (hc : c ≠ '%') : likeMatch (c :: p) [] = false := by
  rw [likeMatch.eq_def]
  simp [hc]

theorem likeMatch_lit_cons_eq (c : Char) (p : List Char) (d : Char)
    (s : List Char) (h1 : c ≠ '%') (h2 : c ≠ '_') (h3 : c ≠ '\\') :
    likeMatch (c :: p) (d :: s) =
      (c.toLower == d.toLower && likeMatch p s) := by
  rw [likeMatch.eq_def]
  simp [h1, h2, h3]

/-- A bare `%` pattern matches every string. -/
theorem likeMatch_percent (s : List Char) : likeMatch ['%'] s = true := by
  induction s with
  | nil => rw [likeMatch_percent_nil_eq]; exact likeMatch_nil_nil
  | cons c s ih =>
    rw [likeMatch_percent_cons_eq, likeMatch_nil_cons, ih]
    rfl

/-- A leading `%` matches any prefix: the rest of the pattern must match
some suffix. -/
theorem likeMatch_percent_iff (p : List Char) :
    ∀ s : List Char, (likeMatch ('%' :: p) s = true ↔
      ∃ s1 s2 : List Char, s = s1 ++ s2 ∧ likeMatch p s2 = true) := by
  intro s
  induction s with
  | nil =>
    rw [likeMatch_percent_nil_eq]
    constructor
    · intro h; exact ⟨[], [], rfl, h⟩
    · rintro ⟨s1, s2, heq, hm⟩
      obtain ⟨rfl, rfl⟩ := List.append_eq_nil.mp heq.symm
      exact hm
  | cons d s ih =>
    rw [likeMatch_percent_cons_eq, Bool.or_eq_true]
    constructor
    · rintro (h | h)
      · exact ⟨[], d :: s, rfl, h⟩
      · obtain ⟨s1, s2, rfl, hm⟩ := ih.mp h
        exact ⟨d :: s1, s2, rfl, hm⟩
    · rintro ⟨s1, s2, heq, hm⟩
      cases s1 with
      | nil =>
        simp only [List.nil_append] at heq
        subst heq
        exact Or.inl hm
      | cons e s1 =>
        injection heq with h1 h2
        subst h1
        exact Or.inr (ih.mpr ⟨s1, s2, h2, hm⟩)

/-- A metacharacter-free pattern followed by `%` matches exactly the
strings with a case-insensitively equal prefix. -/
theorem likeMatch_lit_percent : ∀ q : List Char, litStr q →
    ∀ s : List Char, (likeMatch (q ++ ['%']) s = true ↔
      ∃ s1 s2 : List Char, s = s1 ++ s2 ∧
        s1.map Char.toLower = q.map Char.toLower) := by
  intro q
  induction q with
  | nil =>
    intro _ s
    constructor
    · intro _; exact ⟨[], s, rfl, rfl⟩
    · intro _; exact likeMatch_percent s
  | cons c q ih =>
    intro hq s
    have hc := hq c (List.mem_cons_self c q)
    have hq2 : litStr q := fun x hx => hq x (List.mem_cons_of_mem c hx)
    cases s with
    | nil =>
      rw [List.cons_append, likeMatch_lit_nil_eq c _ hc.1]
      constructor
      · intro h; cases h
      · rintro ⟨s1, s2, heq, hmap⟩
        obtain ⟨rfl, rfl⟩ := List.append_eq_nil.mp heq.symm
        simp at hmap
    | cons d s =>
      rw [List.cons_append,
        likeMatch_lit_cons_eq c _ d s hc.1 hc.2.1 hc.2.2,
        Bool.and_eq_true, beq_iff_eq]
      constructor
      · rintro ⟨hcd, hm⟩
        obtain ⟨s1, s2, rfl, hmap⟩ := (ih hq2 s).mp hm
        exact ⟨d :: s1, s2, rfl, by simp [hmap, hcd]⟩
      · rintro ⟨s1, s2, heq, hmap⟩
        cases s1 with
        | nil => simp at hmap
        | cons e s1 =>
          injection heq with h1 h2
          subst h1
          simp only [List.map_cons] at hmap
          injection hmap with hm1 hm2
          exact ⟨hm1.symm, (ih hq2 s).mpr ⟨s1, s2, h2, hm2⟩⟩

/-- For a metacharacter-free query, the pattern the code interpolates —
`'%' || query || '%'` — matches exactly the strings containing the query
as a case-insensitive substring. -/
theorem likeMatch_substring_iff (q : List Char) (hq : litStr q)
    (s : List Char) :
    likeMatch ('%' :: (q ++ ['%'])) s = true ↔
      (q.map Char.toLower) <:+: (s.map Char.toLower) := by
  rw [likeMatch_percent_iff]
  constructor
  · rintro ⟨s1, s2, rfl, hm⟩
    obtain ⟨a, b, rfl, hmap⟩ := (likeMatch_lit_percent q hq s2).mp hm
    refine ⟨s1.map Char.toLower, b.map Char.toLower, ?_⟩
    simp [hmap]
  · rintro ⟨u, v, huv⟩
    refine ⟨s.take u.length, s.drop u.length,
      (List.take_append_drop u.length s).symm, ?_⟩
    rw [likeMatch_lit_percent q hq]
    refine ⟨(s.drop u.length).take q.length, (s.drop u.length).drop q.length,
      (List.take_append_drop q.length (s.drop u.length)).symm, ?_⟩
    have hs : s.map Char.toLower = u ++ (q.map Char.toLower ++ v) := by
      rw [← huv]; simp
    calc ((s.drop u.length).take q.length).map Char.toLower
        = ((s.map Char.toLower).drop u.length).take q.length := by
          rw [List.map_take, List.map_drop]
      _ = ((u ++ (q.map Char.toLower ++ v)).drop u.length).take q.length := by
          rw [hs]
      _ = (q.map Char.toLower ++ v).take q.length := by
          rw [List.drop_left]
      _ = (q.map Char.toLower ++ v).take (q.map Char.toLower).length := by
          rw [List.length_map]
      _ = q.map Char.toLower := List.take_left _ v

/-- On metacharacter-free queries, the store's matcher coincides with
literal case-insensitive substring containment. -/
theorem likeMatch_eq_containsCI (content q : String) (hq : litStr q.toList) :
    likeMatch ('%' :: (q.toList ++ ['%'])) content.toList =
      containsCI content q := by
  by_cases h : (q.toList.map Char.toLower) <:+: (content.toList.map Char.toLower)
  · rw [(likeMatch_substring_iff q.toList hq content.toList).mpr h]
    exact (decide_eq_true h).symm
  · rw [show containsCI content q = false from decide_eq_false h]
    exact Bool.eq_false_iff.mpr
      (fun hc => h ((likeMatch_substring_iff q.toList hq content.toList).mp hc))

/-- The pattern `%%%` that `search_messages` builds from the query `"%"`
matches every string. -/
theorem likeMatch_triple_percent (s : List Char) :
    likeMatch ['%', '%', '%'] s = true :=
  (likeMatch_percent_iff ['%', '%'] s).mpr
    ⟨[], s, rfl, (likeMatch_percent_iff ['%'] s).mpr
      ⟨[], s, rfl, likeMatch_percent s⟩⟩

/-- C7 (amended): for every user and every query free of the `ILIKE`
metacharacters `%`, `_` and `\`, `search_messages` returns the user's
messages whose content contains the query as a case-insensitive
substring, ordered newest first, truncated to `limit` results (50 by
default).  (For queries containing metacharacters the pattern is
interpolated unescaped and can match more — see the counterexample.) -/
theorem search_messages_literal (st : DBState) (uid : Nat) (q : String)
    (limit : Nat) (hq : litStr q.toList) :
    search_messages st uid q limit =
      (List.insertionSort msgNewestFirst
        (st.messages.filter (fun m =>
          st.conversations.any
            (fun c => c.id == m.conversation_id && c.user_id == uid)
          && containsCI m.content q))).take limit ∧
    List.Pairwise (fun x y : MessageRow => y.created_at ≤ x.created_at)
      (search_messages st uid q limit) ∧
    (search_messages st uid q limit).length ≤ limit ∧
    search_messages_default st uid q = search_messages st uid q 50 := by
  have hfilter :
      st.messages.filter (fun m =>
        st.conversations.any
          (fun c => c.id == m.conversation_id && c.user_id == uid)
        && likeMatch ('%' :: (q.toList ++ ['%'])) m.content.toList) =
      st.messages.filter (fun m =>
        st.conversations.any
          (fun c => c.id == m.conversation_id && c.user_id == uid)
        && containsCI m.content q) := by
    refine List.filter_congr ?_
    intro m _
    rw [likeMatch_eq_containsCI m.content q hq]
  refine ⟨?_, ?_, ?_, rfl⟩
  · unfold search_messages
    rw [hfilter]
  · unfold search_messages
    exact List.Pairwise.sublist (List.take_sublist limit _)
      (List.sorted_insertionSort msgNewestFirst _)
  · unfold search_messages
    simp only [List.length_take]
    omega

/-- Concrete store for the C7 witness: user `1` owns conversation `10`
holding a message whose content says `Database` in mixed case. -/
def exSearchSt : DBState :=
  { users := [],
    conversations :=
      [{ id := 10, user_id := 1, title := "t", message_count := 1,
         updated_at := 0, created_at := 0 }],
    messages :=
      [{ id := 100, conversation_id := 10, role := "user",
         content := "The Database is up", token_count := 4,
         created_at := 1 }],
    notifications := [] }

/-- Witness for C7 at the metacharacter-free query `"database"`. -/
theorem search_messages_literal_witness :
    search_messages exSearchSt 1 "database" 50 =
      (List.insertionSort msgNewestFirst
        (exSearchSt.messages.filter (fun m =>
          exSearchSt.conversations.any
            (fun c => c.id == m.conversation_id && c.user_id == 1)
          && containsCI m.content "database"))).take 50 ∧
    List.Pairwise (fun x y : MessageRow => y.created_at ≤ x.created_at)
      (search_messages exSearchSt 1 "database" 50) ∧
    (search_messages exSearchSt 1 "database" 50).length ≤ 50 ∧
    search_messages_default exSearchSt 1 "database" =
      search_messages exSearchSt 1 "database" 50 :=
  search_messages_literal exSearchSt 1 "database" 50 (by decide)

/-- Concrete message whose content does not contain a literal `%`. -/
def exPctMsg : MessageRow :=
  { id := 100, conversation_id := 10, role := "user", content := "abc",
    token_count := 1, created_at := 1 }

/-- Concrete store for the C7 counterexample. -/
def exPctSt : DBState :=
  { users := [],
    conversations :=
      [{ id := 10, user_id := 1, title := "t", message_count := 1,
         updated_at := 0, created_at := 0 }],
    messages := [exPctMsg],
    notifications := [] }

/-- C7 fails on the code at the query `"%"`: searching returns the
message with content `"abc"` although that content does not contain `"%"`
as a (case-insensitive) substring, so `search_messages` does not return
exactly the messages containing the query for every query. -/
theorem search_messages_metachar_counterexample :
    search_messages exPctSt 1 "%" 50 = [exPctMsg] ∧
    containsCI exPctMsg.content "%" = false := by
  constructor
  · unfold search_messages
    have hpat : ('%' :: (("%" : String).toList ++ ['%'])) = ['%', '%', '%'] :=
      rfl
    rw [hpat]
    have hfilter :
        exPctSt.messages.filter (fun m =>
          exPctSt.conversations.any
            (fun c => c.id == m.conversation_id && c.user_id == 1)
          && likeMatch ['%', '%', '%'] m.content.toList) = [exPctMsg] := by
      simp [exPctSt, exPctMsg, likeMatch_triple_percent]
    rw [hfilter]
    rfl
  · decide

/-- Concrete message for the C10 theorem. -/
def exWildMsg : MessageRow :=
  { id := 200, conversation_id := 20, role := "assistant",
    content := "hello world", token_count := 2, created_at := 1 }

/-- Concrete store for the C10 theorem. -/
def exWildSt : DBState :=
  { users := [],
    conversations :=
      [{ id := 20, user_id := 1, title := "t", message_count := 1,
         updated_at := 0, created_at := 0 }],
    messages := [exWildMsg],
    notifications := [] }

/-- C10: the query is interpolated unescaped into the `ILIKE` pattern, so
metacharacters keep their wildcard meaning: the pattern built from the
query `"%"` matches every content, and a search for `"%"` returns a
message that does not contain `"%"` as a literal substring. -/
theorem search_messages_unescaped_metachars :
    (∀ s : List Char,
      likeMatch ('%' :: (("%" : String).toList ++ ['%'])) s = true) ∧
    search_messages exWildSt 1 "%" 50 = [exWildMsg] ∧
    containsCI exWildMsg.content "%" = false := by
  refine ⟨fun s => likeMatch_triple_percent s, ?_, by decide⟩
  unfold search_messages
  have hpat : ('%' :: (("%" : String).toList ++ ['%'])) = ['%', '%', '%'] :=
    rfl
  rw [hpat]
  have hfilter :
      exWildSt.messages.filter (fun m =>
        exWildSt.conversations.any
          (fun c => c.id == m.conversation_id && c.user_id == 1)
        && likeMatch ['%', '%', '%'] m.content.toList) = [exWildMsg] := by
    simp [exWildSt, exWildMsg, likeMatch_triple_percent]
  rw [hfilter]
  rfl

/-! ## C9: `add_message` on a nonexistent conversation -/

/-- C9: called with a conversation id that matches no conversation row
(and a valid role, so the row `CHECK` passes), `add_message` fails with
the foreign-key violation raised by the message insert, the route layer
surfaces it as HTTP 404, and the caller-visible state is unchanged. -/
theorem add_message_not_found (st : DBState) (cid : Nat)
    (role content : String) (tc : Int) (mid now : Nat)
    (hrole : role = "user" ∨ role = "assistant")
    (habsent : st.conversations.find? (fun c => c.id == cid) = none) :
    add_message st cid role content tc mid now =
      Except.error DBError.foreignKeyViolation ∧
    api_add_message st cid role content tc mid now = (404, st) := by
  have hany : st.conversations.any (fun c => c.id == cid) = false := by
    rw [List.any_eq_false]
    intro c hc
    have := List.find?_eq_none.mp habsent c hc
    simpa using this
  have hr : (role == "user" || role == "assistant") = true := by
    rcases hrole with rfl | rfl <;> decide
  have hadd : add_message st cid role content tc mid now =
      Except.error DBError.foreignKeyViolation := by
    simp [add_message, hr, hany]
  exact ⟨hadd, by simp [api_add_message, hadd]⟩

/-- Store state used in the C9 witness: one user, no conversations. -/
def exNotFoundSt : DBState :=
  { users :=
      [{ id := 1, email := "u1@example.com", token_usage := 7,
         plan_tier := "free", created_at := 0, updated_at := 0 }],
    conversations := [], messages := [], notifications := [] }

/-- Witness for C9: adding a message to absent conversation `42` yields
HTTP 404 and leaves the store unchanged. -/
theorem add_message_not_found_witness :
    add_message exNotFoundSt 42 "user" "hello" 3 9 9 =
      Except.error DBError.foreignKeyViolation ∧
    api_add_message exNotFoundSt 42 "user" "hello" 3 9 9 =
      (404, exNotFoundSt) :=
  add_message_not_found exNotFoundSt 42 "user" "hello" 3 9 9
    (Or.inl rfl) (by decide)

/-! ## C8: sequential specification of `stream_response` -/

/-- C8 (amended): on an existing conversation, without concurrent
writers, and for a sample of at least five distinct fragments drawn from
the fragment pool, `stream_response` inserts the user message and then
one assistant message whose content is the concatenation of the sampled
fragments and whose `token_count` is the sum of the per-fragment word
counts (the code's running estimate, which can differ from the word count
of the concatenated text — see the counterexample), increments the
conversation's `message_count` by exactly two, and raises the owner's
`token_usage` by the user's and assistant's token counts combined. -/
theorem stream_response_spec (st : DBState) (cid : Nat)
    (user_content : String) (user_tc : Int) (selected : List String)
    (mid1 mid2 now : Nat) (conv : ConversationRow) (owner : UserRow)
    (hconv : st.conversations.find? (fun c => c.id == cid) = some conv)
    (howner : st.users.find? (fun u => u.id == conv.user_id) = some owner)
    (_hnodup : selected.Nodup)
    (_hpool : ∀ c ∈ selected, c ∈ RESPONSE_FRAGMENTS)
    (_hlen : 5 ≤ selected.length) :
    ∃ st2 : DBState,
      stream_response st cid user_content user_tc selected mid1 mid2 now =
        Except.ok (st2, selected) ∧
      st2.messages = st.messages ++
        [{ id := mid1, conversation_id := cid, role := "user",
           content := user_content, token_count := user_tc,
           created_at := now },
         { id := mid2, conversation_id := cid, role := "assistant",
           content := String.join selected,
           token_count := tokensOfChunks selected, created_at := now }] ∧
      st2.conversations.find? (fun c => c.id == cid) =
        some { conv with message_count := conv.message_count + 2,
                         updated_at := now } ∧
      st2.users.find? (fun u => u.id == conv.user_id) =
        some { owner with
               token_usage :=
                 owner.token_usage + (user_tc + tokensOfChunks selected),
               updated_at := now } ∧
      st2.notifications = st.notifications := by
  have hp : (fun c => c.id == cid) conv = true :=
    @List.find?_some ConversationRow (fun c => c.id == cid) conv
      st.conversations hconv
  have hany : st.conversations.any (fun c => c.id == cid) = true := by
    rw [List.any_eq_true]
    exact ⟨conv, List.mem_of_find?_eq_some hconv, hp⟩
  have hfind := find?_bumpConversation st.conversations cid 2 now conv hconv
  have husage : userUsage st.users conv.user_id = owner.token_usage := by
    simp [userUsage, howner]
  refine ⟨{ st with
            messages := st.messages ++
              [{ id := mid1, conversation_id := cid, role := "user",
                 content := user_content, token_count := user_tc,
                 created_at := now }] ++
              [{ id := mid2, conversation_id := cid, role := "assistant",
                 content := String.join selected,
                 token_count := tokensOfChunks selected, created_at := now }],
            conversations := bumpConversation st.conversations cid 2 now,
            users := setUserUsage st.users conv.user_id
              (userUsage st.users conv.user_id +
                (user_tc + tokensOfChunks selected)) now },
          ?_, ?_, hfind, ?_, rfl⟩
  · unfold stream_response
    rw [hany]
    simp only [if_true]
    rw [hfind]
  · simp [List.append_assoc]
  · rw [← husage]
    exact find?_setUserUsage st.users conv.user_id
      (userUsage st.users conv.user_id + (user_tc + tokensOfChunks selected))
      now owner howner

/-- Concrete conversation row for the C8 witness and counterexample. -/
def exStreamConv : ConversationRow :=
  { id := 10, user_id := 1, title := "t", message_count := 0,
    updated_at := 0, created_at := 0 }

/-- Concrete user row for the C8 witness and counterexample. -/
def exStreamOwner : UserRow :=
  { id := 1, email := "u1@example.com", token_usage := 10,
    plan_tier := "free", created_at := 0, updated_at := 0 }

/-- Concrete store for the C8 witness and counterexample. -/
def exStreamSt : DBState :=
  { users := [exStreamOwner], conversations := [exStreamConv],
    messages := [], notifications := [] }

/-- A five-fragment sample (the first five pool entries, in order). -/
def exStreamSel : List String :=
  [ "I understand your question. ",
    "Let me think about that. ",
    "Based on my analysis, ",
    "there are several factors to consider. ",
    "First, we should look at " ]

/-- Witness for C8 at a concrete store and sample. -/
theorem stream_response_spec_witness :
    ∃ st2 : DBState,
      stream_response exStreamSt 10 "hi" 2 exStreamSel 101 102 5 =
        Except.ok (st2, exStreamSel) ∧
      st2.messages = exStreamSt.messages ++
        [{ id := 101, conversation_id := 10, role := "user",
           content := "hi", token_count := 2, created_at := 5 },
         { id := 102, conversation_id := 10, role := "assistant",
           content := String.join exStreamSel,
           token_count := tokensOfChunks exStreamSel, created_at := 5 }] ∧
      st2.conversations.find? (fun c => c.id == 10) =
        some { exStreamConv with
               message_count := exStreamConv.message_count + 2,
               updated_at := 5 } ∧
      st2.users.find? (fun u => u.id == exStreamConv.user_id) =
        some { exStreamOwner with
               token_usage :=
                 exStreamOwner.token_usage + (2 + tokensOfChunks exStreamSel),
               updated_at := 5 } ∧
      st2.notifications = exStreamSt.notifications :=
  stream_response_spec exStreamSt 10 "hi" 2 exStreamSel 101 102 5
    exStreamConv exStreamOwner (by decide) (by decide) (by decide)
    (by decide) (by decide)

/-- The assistant message's stored `token_count`, extracted from a
`stream_response` result (the assistant row is the last inserted one). -/
def streamAssistantTokens (r : Except DBError (DBState × List String)) :
    Option Int :=
  match r with
  | Except.ok (st2, _) => (st2.messages.getLast?).map (fun m => m.token_count)
  | Except.error _ => none

/-- A valid five-fragment sample in which the one pool fragment lacking a
trailing space (`"…follow-up questions."`) is emitted first. -/
def exStreamBadSel : List String :=
  [ "Let me know if you have follow-up questions.",
    "I understand your question. ",
    "Let me think about that. ",
    "Based on my analysis, ",
    "there are several factors to consider. " ]

set_option maxRecDepth 100000 in
/-- C8 fails on the code as stated: for this admissible sample the stored
assistant `token_count` is the sum of the per-fragment word counts, which
differs from the word count of the concatenated assistant content
(adjacent fragments merge at the unspaced boundary). -/
theorem stream_response_wordcount_counterexample :
    exStreamBadSel.Nodup ∧
    (∀ c ∈ exStreamBadSel, c ∈ RESPONSE_FRAGMENTS) ∧
    5 ≤ exStreamBadSel.length ∧
    streamAssistantTokens
      (stream_response exStreamSt 10 "hi" 2 exStreamBadSel 101 102 5) =
      some (tokensOfChunks exStreamBadSel) ∧
    tokensOfChunks exStreamBadSel ≠
      (wordCount (String.join exStreamBadSel) : Int) := by
  decide

end ChatApp
